import Mathlib

/-!
# GenHat local process supervisor — verification of the specification

Shallow embedding of `src/genhat-desktop/src-tauri/src/main.rs` (the local
inference-backend supervisor of the GenHat desktop application) together with
proofs settling the specification's claims about it.

Modelling conventions:
* A filesystem path is a list of components (`Path`); the root (or empty) path
  is `[]`.  `Path::join` with a multi-component string literal appends all of
  its components.
* The filesystem is the finite list of paths that exist (`Fs`); `fs.ex p`
  models `p.exists()` / `p.is_file()` for the resolver candidates.
* Rust's `Iterator::find_map` is `findMap`; the sequential
  if-exists-return chains are related to `firstMatch` over explicit candidate
  lists by the flattening lemmas below.
* OS processes are identified by numeric pids; the effect of `Child::kill`
  and `Command::spawn` is recorded in an event trace (`Ev`), and the
  `Mutex<Option<Child>>` slot of `AppState` is an `Option Nat`.
* A Rust `panic!` / `.expect(...)` abort is the distinguished outcome
  `CmdRes.panicked`, kept apart from an `Err` return (`CmdRes.err`).
-/

namespace GenHat

/-- A filesystem path as a list of components; `[]` is the root/empty path. -/
abbrev Path : Type := List String

/-- The set of existing filesystem paths, as a finite list. -/
abbrev Fs : Type := List Path

/-- `p.exists()` for the modelled filesystem. -/
def Fs.ex (fs : Fs) (p : Path) : Bool := fs.contains p

/-- Rendering of a path for display inside error messages
(`Path::display` on a Unix-like system). -/
def pathString (p : Path) : String := String.intercalate "/" p

/-- Rust's `Iterator::find_map` on a list. -/
def findMap {α β : Type} (g : α → Option β) : List α → Option β
  | [] => none
  | a :: t =>
    match g a with
    | some b => some b
    | none => findMap g t

/-- First element of the list satisfying the test (the result of a sequential
if-exists-return chain over an explicit candidate list). -/
def firstMatch {α : Type} (p : α → Bool) : List α → Option α
  | [] => none
  | a :: t => if p a then some a else firstMatch p t

/-- Concatenation of the per-element candidate lists, in iteration order. -/
def flatCands {α β : Type} (l : List α) (f : α → List β) : List β :=
  match l with
  | [] => []
  | a :: t => f a ++ flatCands t f

/-- Left-biased choice on options. -/
def orO {α : Type} : Option α → Option α → Option α
  | some a, _ => some a
  | none, b => b

/-- `Path::ancestors`: the path itself, then each parent, down to the
root/empty path.  For `a/b` this is `[a/b, a, root]`. -/
def ancestors (p : Path) : List Path :=
  (List.range (p.length + 1)).map (fun k => p.take (p.length - k))

/-- The compilation target platform (`cfg!` in the source). -/
inductive Platform : Type
  | windows
  | macos
  | linux
deriving DecidableEq

/-- The OS-specific folder name used by `resolve_llama_exe`. -/
def osFolder : Platform → String
  | .windows => "llama-win"
  | .macos => "llama-mac"
  | .linux => "llama-lin"

/-- The candidate executable names of `resolve_llama_exe`, in source order. -/
def exeNames : Platform → List String
  | .windows => ["llama-server.exe"]
  | .macos =>
    ["llama-server", "llama-server-macos", "llama-server-macos-arm64",
     "llama-server-macos-x86_64", "llama-server-arm64", "llama-server-x86_64"]
  | .linux => ["llama-server"]

/-- The dev-layout candidate `dir/src-tauri/bin/{os_folder}/{exe_name}`. -/
def llamaDev (pl : Platform) (dir : Path) (n : String) : Path :=
  dir ++ ["src-tauri", "bin", osFolder pl, n]

/-- The release-layout candidate `dir/bin/{os_folder}/{exe_name}`. -/
def llamaRel (pl : Platform) (dir : Path) (n : String) : Path :=
  dir ++ ["bin", osFolder pl, n]

/-- The resources-layout candidate `dir/resources/bin/{os_folder}/{exe_name}`. -/
def llamaRes (pl : Platform) (dir : Path) (n : String) : Path :=
  dir ++ ["resources", "bin", osFolder pl, n]

/-- The three layout candidates checked for one executable name at one
ancestor, in the source's check order: dev, release, resources. -/
def llamaDirCands (pl : Platform) (dir : Path) (n : String) : List Path :=
  [llamaDev pl dir n, llamaRel pl dir n, llamaRes pl dir n]

/-- The body of the per-ancestor closure of `resolve_llama_exe`: for each
executable name (outer loop), check the dev, release and resources layout
candidates (inner chain) and return the first that exists. -/
def searchLlamaDir (pl : Platform) (fs : Fs) (dir : Path) : Option Path :=
  findMap (fun n =>
    let dev := llamaDev pl dir n
    if fs.ex dev then some dev else
    let rel := llamaRel pl dir n
    if fs.ex rel then some rel else
    let res := llamaRes pl dir n
    if fs.ex res then some res else none) (exeNames pl)

/-- Every candidate path `resolve_llama_exe` checks, in the order the source
pushes them onto `checked`: ancestors outermost (closest first), then
executable names in declared order, then dev/release/resources layouts. -/
def llamaCandidates (pl : Platform) (exeP : Path) : List Path :=
  flatCands (ancestors exeP)
    (fun dir => flatCands (exeNames pl) (llamaDirCands pl dir))

/-- `resolve_llama_exe`: walk the ancestors of the running binary's path and
return the first existing candidate; on failure the panic message enumerates
the full `checked` list, which at that point holds every candidate. -/
def resolve_llama_exe (pl : Platform) (exeP : Path) (fs : Fs) :
    Except (List Path) Path :=
  match findMap (searchLlamaDir pl fs) (ancestors exeP) with
  | some c => .ok c
  | none => .error (llamaCandidates pl exeP)

/-- The OS-specific folder name used by `resolve_tts_exe`. -/
def ttsOsFolder : Platform → String
  | .windows => "tts-win"
  | .macos => "tts-mac"
  | .linux => "tts-lin"

/-- The TTS executable filename per platform. -/
def ttsExeName : Platform → String
  | .windows => "tts-inference.exe"
  | _ => "tts-inference"

/-- `old_onefile.parent().file_name()`: the last component of the parent. -/
def parentName (p : Path) : Option String := p.dropLast.getLast?

/-- The body of the per-ancestor closure of `resolve_tts_exe`: dev, release
and resources onedir layouts, then the legacy onefile dev candidate guarded by
its parent directory not being named `tts-inference`. -/
def ttsDirSearch (pl : Platform) (fs : Fs) (dir : Path) : Option Path :=
  let relPath : Path := ["tts-inference", ttsExeName pl]
  let dev := dir ++ ["src-tauri", "bin", ttsOsFolder pl] ++ relPath
  if fs.ex dev then some dev else
  let rel := dir ++ ["bin", ttsOsFolder pl] ++ relPath
  if fs.ex rel then some rel else
  let res := dir ++ ["resources", "bin", ttsOsFolder pl] ++ relPath
  if fs.ex res then some res else
  let old := dir ++ ["src-tauri", "bin", ttsOsFolder pl, ttsExeName pl]
  if fs.ex old && !(parentName old == some "tts-inference") then some old
  else none

/-- `resolve_tts_exe`: walk the ancestors and return the first accepted
candidate; on failure the source aborts with the fixed message
`TTS executable not found` (an `expect`, with no path list). -/
def resolve_tts_exe (pl : Platform) (exeP : Path) (fs : Fs) :
    Except String Path :=
  match findMap (ttsDirSearch pl fs) (ancestors exeP) with
  | some c => .ok c
  | none => .error "TTS executable not found"

/-! ## Spec-side formulations of the resolution order

`resolveLlamaLayoutMajor` follows the spec's words for the search order
(layout priority outermost: development, then release-bundled, then
packaged-resources, and for each layout every platform filename); it is
compared with `resolve_llama_exe` in the refinement claims.  The flat
candidate structures below characterise the source's actual order. -/

/-- The three base-directory layouts, in the spec's priority order. -/
inductive Layout : Type
  | dev
  | rel
  | res
deriving DecidableEq

/-- The candidate path for one layout, ancestor and executable name. -/
def layoutCand (pl : Platform) (dir : Path) : Layout → String → Path
  | .dev, n => llamaDev pl dir n
  | .rel, n => llamaRel pl dir n
  | .res, n => llamaRes pl dir n

/-- All candidates in the spec's stated order: ancestors outermost, then
layouts (dev, rel, res), then executable filenames innermost. -/
def llamaLayoutMajorCandidates (pl : Platform) (exeP : Path) : List Path :=
  flatCands (ancestors exeP) (fun dir =>
    flatCands [Layout.dev, Layout.rel, Layout.res] (fun L =>
      (exeNames pl).map (layoutCand pl dir L)))

/-- Resolution as the spec words it: at each ancestor, for each layout in
priority order dev/rel/res, for each platform filename, take the first
existing candidate. -/
def resolveLlamaLayoutMajor (pl : Platform) (exeP : Path) (fs : Fs) :
    Except (List Path) Path :=
  match findMap (fun dir =>
      findMap (fun L =>
        findMap (fun n =>
          if fs.ex (layoutCand pl dir L n) then some (layoutCand pl dir L n)
          else none) (exeNames pl)) [Layout.dev, Layout.rel, Layout.res])
      (ancestors exeP) with
  | some c => .ok c
  | none => .error (llamaLayoutMajorCandidates pl exeP)

/-- The code-order flattening of `resolve_llama_exe`: the first existing
element of `llamaCandidates` (ancestors, then filenames, then layouts), or the
full checked list on failure. -/
def llamaFlatResolve (pl : Platform) (exeP : Path) (fs : Fs) :
    Except (List Path) Path :=
  match firstMatch fs.ex (llamaCandidates pl exeP) with
  | some c => .ok c
  | none => .error (llamaCandidates pl exeP)

/-- A TTS resolution candidate: its path, and whether it is the legacy
onefile candidate (whose acceptance carries the parent-name guard). -/
structure TtsCand : Type where
  path : Path
  legacy : Bool
deriving DecidableEq

/-- Acceptance of a TTS candidate: existence, plus for the legacy candidate
the guard that its parent directory is not named `tts-inference`. -/
def ttsAccept (fs : Fs) (c : TtsCand) : Bool :=
  if c.legacy then fs.ex c.path && !(parentName c.path == some "tts-inference")
  else fs.ex c.path

/-- The four TTS candidates checked at one ancestor, in source order:
dev, release, resources onedir layouts, then the legacy onefile candidate. -/
def ttsCands (pl : Platform) (dir : Path) : List TtsCand :=
  [⟨dir ++ ["src-tauri", "bin", ttsOsFolder pl, "tts-inference", ttsExeName pl], false⟩,
   ⟨dir ++ ["bin", ttsOsFolder pl, "tts-inference", ttsExeName pl], false⟩,
   ⟨dir ++ ["resources", "bin", ttsOsFolder pl, "tts-inference", ttsExeName pl], false⟩,
   ⟨dir ++ ["src-tauri", "bin", ttsOsFolder pl, ttsExeName pl], true⟩]

/-- Every TTS candidate checked, in check order across the ancestor chain. -/
def ttsCandidates (pl : Platform) (exeP : Path) : List TtsCand :=
  flatCands (ancestors exeP) (ttsCands pl)

/-- The flattening of `resolve_tts_exe`: the first accepted element of
`ttsCandidates`, or the fixed failure message. -/
def ttsFlatResolve (pl : Platform) (exeP : Path) (fs : Fs) :
    Except String Path :=
  match firstMatch (ttsAccept fs) (ttsCandidates pl exeP) with
  | some c => .ok c.path
  | none => .error "TTS executable not found"

/-! ## The supervisor state machine

`AppState.llama : Mutex<Option<Child>>` is modelled as an `Option Nat` slot
holding the pid of the owned child, and each command is a state transition
that also emits the trace of kill/spawn effects it performs, in order.
`spawn_llama_process` is abstracted by the pid the OS would assign and a flag
saying whether the spawn succeeds (the spec's fake-launcher injection); on
spawn failure the source's `.expect("Failed to start llama-server")` aborts,
modelled as `CmdRes.panicked`. -/

/-- A process-management effect: a spawn or a kill of a pid. -/
inductive Ev : Type
  | spawn (pid : Nat)
  | kill (pid : Nat)
deriving DecidableEq

/-- Outcome of a command invocation: an `Ok` return, an `Err` return, or a
panic (`expect` / `unwrap` abort). -/
inductive CmdRes : Type
  | ok (s : String)
  | err (s : String)
  | panicked (s : String)
deriving DecidableEq

/-- The kill effects of `guard.take()` followed by `child.kill()`:
one kill when a child is held, none otherwise. -/
def killEvs : Option Nat → List Ev
  | none => []
  | some p => [.kill p]

/-- `switch_model`: fail early when the model file does not exist; otherwise
kill the currently held child (if any), spawn the new server and store its
handle.  A failing spawn panics after the old child was already killed and
taken, leaving the slot empty. -/
def switch_model (fs : Fs) (st : Option Nat) (path : Path) (pid : Nat)
    (spawnOk : Bool) : CmdRes × Option Nat × List Ev :=
  if fs.ex path then
    if spawnOk then
      (.ok "server started", some pid, killEvs st ++ [.spawn pid])
    else
      (.panicked "Failed to start llama-server", none, killEvs st)
  else
    (.err ("Model file not found: " ++ pathString path), st, [])

/-- `stop_llama`: take the held child (if any) and kill it. -/
def stop_llama (st : Option Nat) : Option Nat × List Ev :=
  (none, killEvs st)

/-- The `RunEvent::Exit` handler in `main`: same body as `stop_llama`. -/
def exit_handler (st : Option Nat) : Option Nat × List Ev :=
  (none, killEvs st)

/-- A supervisor operation: a `switch_model` call (with the pid and spawn
outcome the launcher would produce), a `stop_llama` call, or the shutdown
handler. -/
inductive Op : Type
  | switch (path : Path) (pid : Nat) (spawnOk : Bool)
  | stop
  | shutdown
deriving DecidableEq

/-- One supervisor transition: result, new slot, emitted effects. -/
def step (fs : Fs) (st : Option Nat) : Op → CmdRes × Option Nat × List Ev
  | .switch path pid spawnOk => switch_model fs st path pid spawnOk
  | .stop => (.ok "", (stop_llama st).1, (stop_llama st).2)
  | .shutdown => (.ok "", (exit_handler st).1, (exit_handler st).2)

/-- Run a sequence of supervisor operations, concatenating the emitted
effect traces in order. -/
def run (fs : Fs) (st : Option Nat) : List Op → Option Nat × List Ev
  | [] => (st, [])
  | op :: rest =>
    let r := step fs st op
    let rr := run fs r.2.1 rest
    (rr.1, r.2.2 ++ rr.2)

/-- An operation the claims call valid: a switch to an existing model file
whose spawn succeeds, or a stop/shutdown. -/
def validOp (fs : Fs) : Op → Bool
  | .switch path _ spawnOk => fs.ex path && spawnOk
  | .stop => true
  | .shutdown => true

/-- The set of live processes after replaying an effect trace from an
initial live set: a spawn adds a pid, a kill removes its first occurrence. -/
def liveStep (l : List Nat) : Ev → List Nat
  | .spawn p => l ++ [p]
  | .kill p => l.erase p

/-- Replay a whole effect trace over the live set. -/
def liveFrom (l : List Nat) : List Ev → List Nat
  | [] => l
  | e :: rest => liveFrom (liveStep l e) rest

/-- The live set the slot accounts for: empty, or the single held pid. -/
def stList : Option Nat → List Nat
  | none => []
  | some p => [p]

/-- `pre` is an initial segment of `l` (an observation point inside `l`). -/
def PrefixOf {α : Type} (pre l : List α) : Prop := ∃ t, pre ++ t = l

/-! ## The one-shot TTS invocation (`generate_speech`) -/

/-- Captured output of the one-shot subprocess: exit status plus the full
stdout and stderr text. -/
structure ProcOut : Type where
  success : Bool
  stdout : String
  stderr : String
deriving DecidableEq

/-- Outcome of `generate_speech`: an `Ok` path, an `Err` message, or a panic
(the `resolve_tts_exe` expect). -/
inductive TtsRes : Type
  | ok (outPath : String)
  | err (msg : String)
  | panicked (msg : String)
deriving DecidableEq

/-- The error message for a non-zero exit of the TTS subprocess, exactly as
`format!("TTS process failed: {}\nStdout: {}", stderr, stdout)` builds it. -/
def ttsFailMsg (stderrText stdoutText : String) : String :=
  "TTS process failed: " ++ stderrText ++ "\nStdout: " ++ stdoutText

/-- The generated output filename `genhat_tts_{timestamp}.wav`. -/
def ttsOutName (timestamp : Nat) : String :=
  "genhat_tts_" ++ toString timestamp ++ ".wav"

/-- `generate_speech`: resolve the TTS executable (a failure there aborts),
check the primary model file and its two expected siblings
(`ve_fp32-f16.gguf`, `t3_cfg-q4_k_m.gguf`) exist, then run the subprocess to
completion.  `spawnRes` is the OS-level outcome of `Command::output()`:
`none` when the spawn itself fails, otherwise the captured exit status and
streams.  The second component records whether a spawn was attempted. -/
def generate_speech (pl : Platform) (exeP : Path) (fs : Fs)
    (model_path : Path) (tempDir : Path) (timestamp : Nat)
    (spawnRes : Option ProcOut) : TtsRes × Bool :=
  match resolve_tts_exe pl exeP fs with
  | .error m => (.panicked m, false)
  | .ok exe =>
    if !fs.ex model_path then
      (.err ("Model path not found: " ++ pathString model_path), false)
    else
      let parent := model_path.dropLast
      let vae := parent ++ ["ve_fp32-f16.gguf"]
      let clip := parent ++ ["t3_cfg-q4_k_m.gguf"]
      if !fs.ex vae then
        (.err ("Sibling VAE model (ve_fp32-f16.gguf) not found in "
          ++ pathString parent), false)
      else if !fs.ex clip then
        (.err ("Sibling CLIP model (t3_cfg-q4_k_m.gguf) not found in "
          ++ pathString parent), false)
      else
        let outStr := pathString (tempDir ++ [ttsOutName timestamp])
        match spawnRes with
        | none =>
          (.err ("Failed to spawn tts executable " ++ pathString exe), true)
        | some out =>
          if out.success then (.ok outStr, true)
          else (.err (ttsFailMsg out.stderr out.stdout), true)

/-! ## The models directory (`get_models_dir`) -/

/-- `Path::parent`: `none` for the root/empty path, else the path without its
last component. -/
def parentPath : Path → Option Path
  | [] => none
  | p => some p.dropLast

/-- The compiled-in fallback: `{CARGO_MANIFEST_DIR}/../../models`,
canonicalised when possible (`canon` models `Path::canonicalize`, returning
`none` on failure, in which case the joined path is used as is). -/
def defaultModelsDir (canon : Path → Option Path) (manifestDir : Path) :
    Path :=
  let models := manifestDir ++ ["..", "..", "models"]
  (canon models).getD models

/-- `get_models_dir`: honour the `GENHAT_MODEL_PATH` override (`envVal`) when
it names an existing file (take its parent) or an existing directory (take it
as is); otherwise fall back to the compiled-in default. -/
def get_models_dir (isFile isDir : Path → Bool) (envVal : Option Path)
    (canon : Path → Option Path) (manifestDir : Path) : Path :=
  match envVal with
  | some p =>
    if isFile p then
      match parentPath p with
      | some parent => parent
      | none => defaultModelsDir canon manifestDir
    else if isDir p then p
    else defaultModelsDir canon manifestDir
  | none => defaultModelsDir canon manifestDir

/-! ## Helper lemmas: flattening the nested resolver loops -/

theorem firstMatch_append {α : Type} (p : α → Bool) (xs ys : List α) :
    firstMatch p (xs ++ ys) = orO (firstMatch p xs) (firstMatch p ys) := by
  induction xs with
  | nil => simp [firstMatch, orO]
  | cons x t ih =>
    by_cases h : p x <;> simp [firstMatch, h, ih, orO]

theorem findMap_flat {α β γ : Type} (g : α → Option γ) (f : α → List β)
    (p : β → Bool) (h : β → γ)
    (hg : ∀ a, g a = Option.map h (firstMatch p (f a))) (l : List α) :
    findMap g l = Option.map h (firstMatch p (flatCands l f)) := by
  induction l with
  | nil => simp [findMap, flatCands, firstMatch]
  | cons a t ih =>
    simp only [findMap, flatCands, hg a, firstMatch_append, ih]
    cases firstMatch p (f a) <;> simp [orO]

theorem findMap_congr {α β : Type} (g g' : α → Option β)
    (h : ∀ a, g a = g' a) (l : List α) : findMap g l = findMap g' l := by
  induction l with
  | nil => rfl
  | cons a t ih => simp only [findMap, h a, ih]

theorem flatCands_congr {α β : Type} (f f' : α → List β)
    (h : ∀ a, f a = f' a) (l : List α) : flatCands l f = flatCands l f' := by
  induction l with
  | nil => rfl
  | cons a t ih => simp only [flatCands, h a, ih]

theorem firstMatch_eq_none {α : Type} (p : α → Bool) (l : List α)
    (h : ∀ a ∈ l, p a = false) : firstMatch p l = none := by
  induction l with
  | nil => rfl
  | cons a t ih =>
    simp only [firstMatch, h a (List.mem_cons_self a t)]
    exact ih (fun b hb => h b (List.mem_cons_of_mem a hb))

theorem searchLlamaDir_eq (pl : Platform) (fs : Fs) (dir : Path) :
    searchLlamaDir pl fs dir
      = firstMatch fs.ex (flatCands (exeNames pl) (llamaDirCands pl dir)) := by
  have h := findMap_flat
    (g := fun n =>
      let dev := llamaDev pl dir n
      if fs.ex dev then some dev else
      let rel := llamaRel pl dir n
      if fs.ex rel then some rel else
      let res := llamaRes pl dir n
      if fs.ex res then some res else none)
    (f := llamaDirCands pl dir) (p := fs.ex) (h := id)
    (fun n => by
      cases h1 : fs.ex (llamaDev pl dir n) <;>
        cases h2 : fs.ex (llamaRel pl dir n) <;>
          cases h3 : fs.ex (llamaRes pl dir n) <;>
            simp [llamaDirCands, firstMatch, h1, h2, h3])
    (exeNames pl)
  simpa [searchLlamaDir, Option.map_id] using h

theorem resolveLlama_flat (pl : Platform) (exeP : Path) (fs : Fs) :
    resolve_llama_exe pl exeP fs = llamaFlatResolve pl exeP fs := by
  have h := findMap_flat (g := searchLlamaDir pl fs)
    (f := fun dir => flatCands (exeNames pl) (llamaDirCands pl dir))
    (p := fs.ex) (h := id)
    (fun dir => by simpa [Option.map_id] using searchLlamaDir_eq pl fs dir)
    (ancestors exeP)
  simp only [resolve_llama_exe, llamaFlatResolve, llamaCandidates, h,
    Option.map_id, id]

theorem ttsDirSearch_eq (pl : Platform) (fs : Fs) (dir : Path) :
    ttsDirSearch pl fs dir
      = Option.map TtsCand.path (firstMatch (ttsAccept fs) (ttsCands pl dir)) := by
  simp only [ttsDirSearch, ttsCands, ttsAccept, firstMatch, List.append_assoc]
  cases h1 : fs.ex (dir ++ ["src-tauri", "bin", ttsOsFolder pl, "tts-inference", ttsExeName pl]) <;>
    cases h2 : fs.ex (dir ++ ["bin", ttsOsFolder pl, "tts-inference", ttsExeName pl]) <;>
      cases h3 : fs.ex (dir ++ ["resources", "bin", ttsOsFolder pl, "tts-inference", ttsExeName pl]) <;>
        simp [h1, h2, h3, List.append_assoc]

theorem resolveTts_flat (pl : Platform) (exeP : Path) (fs : Fs) :
    resolve_tts_exe pl exeP fs = ttsFlatResolve pl exeP fs := by
  have h := findMap_flat (g := ttsDirSearch pl fs) (f := ttsCands pl)
    (p := ttsAccept fs) (h := TtsCand.path)
    (ttsDirSearch_eq pl fs) (ancestors exeP)
  simp only [resolve_tts_exe, ttsFlatResolve, ttsCandidates, h]
  cases firstMatch (ttsAccept fs) (flatCands (ancestors exeP) (ttsCands pl)) <;>
    simp

theorem layoutMajor_eq_single (pl : Platform) (n : String)
    (hn : exeNames pl = [n]) (exeP : Path) (fs : Fs) :
    resolve_llama_exe pl exeP fs = resolveLlamaLayoutMajor pl exeP fs := by
  have hdir : ∀ dir, searchLlamaDir pl fs dir
      = findMap (fun L =>
          findMap (fun m =>
            if fs.ex (layoutCand pl dir L m) then some (layoutCand pl dir L m)
            else none) (exeNames pl)) [Layout.dev, Layout.rel, Layout.res] := by
    intro dir
    rw [searchLlamaDir, hn]
    cases h1 : fs.ex (llamaDev pl dir n) <;>
      cases h2 : fs.ex (llamaRel pl dir n) <;>
        cases h3 : fs.ex (llamaRes pl dir n) <;>
          simp [findMap, layoutCand, h1, h2, h3]
  have hcands : llamaCandidates pl exeP = llamaLayoutMajorCandidates pl exeP := by
    unfold llamaCandidates llamaLayoutMajorCandidates
    refine flatCands_congr _ _ (fun dir => ?_) (ancestors exeP)
    rw [hn]
    simp [flatCands, llamaDirCands, layoutCand]
  simp only [resolve_llama_exe, resolveLlamaLayoutMajor,
    findMap_congr _ _ hdir (ancestors exeP), hcands]

/-! ## Helper lemmas: the live-process trace -/

theorem liveFrom_append (l : List Nat) (a b : List Ev) :
    liveFrom l (a ++ b) = liveFrom (liveFrom l a) b := by
  induction a generalizing l with
  | nil => rfl
  | cons e t ih =>
    simp only [List.cons_append, liveFrom]
    exact ih _

theorem stList_len (st : Option Nat) : (stList st).length ≤ 1 := by
  cases st <;> simp [stList]

theorem step_live (fs : Fs) (st : Option Nat) (op : Op) :
    liveFrom (stList st) (step fs st op).2.2 = stList (step fs st op).2.1 := by
  cases op with
  | switch path pid spawnOk =>
    cases h : fs.ex path <;> cases spawnOk <;> cases st <;>
      simp [step, switch_model, killEvs, stList, liveFrom, liveStep, h,
        List.erase_cons_head]
  | stop =>
    cases st <;>
      simp [step, stop_llama, killEvs, stList, liveFrom, liveStep,
        List.erase_cons_head]
  | shutdown =>
    cases st <;>
      simp [step, exit_handler, killEvs, stList, liveFrom, liveStep,
        List.erase_cons_head]

theorem prefixOf_nil {α : Type} {pre : List α} (h : PrefixOf pre []) :
    pre = [] := by
  obtain ⟨t, ht⟩ := h
  cases pre with
  | nil => rfl
  | cons a l => simp at ht

theorem prefixOf_single {α : Type} {pre : List α} {x : α}
    (h : PrefixOf pre [x]) : pre = [] ∨ pre = [x] := by
  obtain ⟨t, ht⟩ := h
  cases pre with
  | nil => exact Or.inl rfl
  | cons y yt =>
    refine Or.inr ?_
    injection ht with h1 h2
    obtain ⟨rfl, rfl⟩ := List.append_eq_nil.mp h2
    rw [h1]

theorem prefixOf_pair {α : Type} {pre : List α} {x y : α}
    (h : PrefixOf pre [x, y]) : pre = [] ∨ pre = [x] ∨ pre = [x, y] := by
  obtain ⟨t, ht⟩ := h
  cases pre with
  | nil => exact Or.inl rfl
  | cons a l =>
    injection ht with h1 h2
    subst h1
    rcases prefixOf_single ⟨t, h2⟩ with rfl | rfl
    · exact Or.inr (Or.inl rfl)
    · exact Or.inr (Or.inr rfl)

theorem prefixOf_append {α : Type} {pre a b : List α}
    (h : PrefixOf pre (a ++ b)) :
    PrefixOf pre a ∨ ∃ p2, pre = a ++ p2 ∧ PrefixOf p2 b := by
  induction a generalizing pre with
  | nil => exact Or.inr ⟨pre, rfl, h⟩
  | cons x t ih =>
    cases pre with
    | nil => exact Or.inl ⟨x :: t, rfl⟩
    | cons y yt =>
      obtain ⟨s, hs⟩ := h
      injection hs with h1 h2
      subst h1
      rcases ih ⟨s, h2⟩ with ⟨t', ht'⟩ | ⟨p2, rfl, hp2⟩
      · exact Or.inl ⟨t', by rw [List.cons_append, ht']⟩
      · exact Or.inr ⟨p2, rfl, hp2⟩

theorem step_prefix (fs : Fs) (st : Option Nat) (op : Op) (pre : List Ev)
    (h : PrefixOf pre (step fs st op).2.2) :
    (liveFrom (stList st) pre).length ≤ 1 := by
  cases op with
  | switch path pid spawnOk =>
    by_cases hex : fs.ex path
    · cases spawnOk with
      | true =>
        cases st with
        | none =>
          simp only [step, switch_model, hex, if_true, killEvs,
            List.nil_append] at h
          rcases prefixOf_single h with rfl | rfl <;>
            simp [liveFrom, liveStep, stList]
        | some q =>
          simp only [step, switch_model, hex, if_true, killEvs,
            List.cons_append, List.nil_append] at h
          rcases prefixOf_pair h with rfl | rfl | rfl <;>
            simp [liveFrom, liveStep, stList, List.erase_cons_head]
      | false =>
        cases st with
        | none =>
          simp only [step, switch_model, hex, if_true, killEvs] at h
          rw [prefixOf_nil h]
          simp [liveFrom, stList]
        | some q =>
          simp only [step, switch_model, hex, if_true, killEvs] at h
          rcases prefixOf_single h with rfl | rfl <;>
            simp [liveFrom, liveStep, stList, List.erase_cons_head]
    · simp only [step, switch_model, hex] at h
      rw [prefixOf_nil h]
      simp only [liveFrom]
      exact stList_len st
  | stop =>
    cases st with
    | none =>
      simp only [step, stop_llama, killEvs] at h
      rw [prefixOf_nil h]
      simp [liveFrom, stList]
    | some q =>
      simp only [step, stop_llama, killEvs] at h
      rcases prefixOf_single h with rfl | rfl <;>
        simp [liveFrom, liveStep, stList, List.erase_cons_head]
  | shutdown =>
    cases st with
    | none =>
      simp only [step, exit_handler, killEvs] at h
      rw [prefixOf_nil h]
      simp [liveFrom, stList]
    | some q =>
      simp only [step, exit_handler, killEvs] at h
      rcases prefixOf_single h with rfl | rfl <;>
        simp [liveFrom, liveStep, stList, List.erase_cons_head]

theorem run_live (fs : Fs) (ops : List Op) : ∀ st : Option Nat,
    liveFrom (stList st) (run fs st ops).2 = stList (run fs st ops).1 := by
  induction ops with
  | nil => intro st; rfl
  | cons op rest ih =>
    intro st
    simp only [run, liveFrom_append, step_live]
    exact ih _

theorem run_prefix (fs : Fs) (ops : List Op) : ∀ (st : Option Nat)
    (pre : List Ev), PrefixOf pre (run fs st ops).2 →
    (liveFrom (stList st) pre).length ≤ 1 := by
  induction ops with
  | nil =>
    intro st pre h
    rw [prefixOf_nil h]
    simp only [liveFrom]
    exact stList_len st
  | cons op rest ih =>
    intro st pre h
    simp only [run] at h
    rcases prefixOf_append h with h1 | ⟨p2, rfl, h2⟩
    · exact step_prefix fs st op pre h1
    · rw [liveFrom_append, step_live]
      exact ih _ p2 h2

/-! ## Small string and substring helpers -/

theorem strAppend_assoc (a b c : String) : a ++ b ++ c = a ++ (b ++ c) := by
  apply String.ext
  simp [String.data_append, List.append_assoc]

theorem strAppend_empty (a : String) : a ++ "" = a := by
  apply String.ext
  simp [String.data_append]

/-- Does `needle` occur at the very front of `hay`? -/
def chunkAt : List Char → List Char → Bool
  | [], _ => true
  | _ :: _, [] => false
  | a :: as, b :: bs => a == b && chunkAt as bs

/-- Does `needle` occur contiguously anywhere inside `hay`?  Used to check
whether an error message mentions a given path. -/
def hasChunk (needle : List Char) : List Char → Bool
  | [] => chunkAt needle []
  | b :: rest => chunkAt needle (b :: rest) || hasChunk needle rest

/-! ## The claims -/

/-- C1: for every sequence of `switch_model`, `stop_llama` and shutdown
operations with valid model paths (and successful spawns), at every
observation point of the emitted kill/spawn trace at most one long-running
backend process is alive, and the processes alive at the end are exactly
those held by the Supervisor's slot. -/
theorem claim_C1_at_most_one_live (fs : Fs) (ops : List Op)
    (_hv : ∀ op ∈ ops, validOp fs op = true) :
    (∀ pre : List Ev, PrefixOf pre (run fs none ops).2 →
      (liveFrom [] pre).length ≤ 1)
    ∧ liveFrom [] (run fs none ops).2 = stList (run fs none ops).1 :=
  ⟨fun pre h => run_prefix fs ops none pre h, run_live fs ops none⟩

theorem claim_C1_witness :
    (∀ op ∈ [Op.switch ["models", "a.gguf"] 1 true,
             Op.switch ["models", "b.gguf"] 2 true, Op.stop],
      validOp [["models", "a.gguf"], ["models", "b.gguf"]] op = true)
    ∧ (liveFrom [] [Ev.spawn 1, Ev.kill 1]).length ≤ 1 :=
  ⟨by decide,
   (claim_C1_at_most_one_live [["models", "a.gguf"], ["models", "b.gguf"]]
      [Op.switch ["models", "a.gguf"] 1 true,
       Op.switch ["models", "b.gguf"] 2 true, Op.stop] (by decide)).1
     [Ev.spawn 1, Ev.kill 1] ⟨[Ev.spawn 2, Ev.kill 2], by decide⟩⟩

/-- C2: two consecutive `switch_model` calls with different valid models,
starting from an idle supervisor, emit the trace
spawn-first / kill-first / spawn-second: the second call issues exactly one
termination signal (to the first process) and exactly one launch (of the
second), with the kill issued before the new handle is produced and
installed; the final slot holds the second process. -/
theorem claim_C2_switch_switch (fs : Fs) (p1 p2 : Path) (pid1 pid2 : Nat)
    (_hne : p1 ≠ p2) (h1 : fs.ex p1 = true) (h2 : fs.ex p2 = true) :
    run fs none [.switch p1 pid1 true, .switch p2 pid2 true]
      = (some pid2, [.spawn pid1, .kill pid1, .spawn pid2]) := by
  simp [run, step, switch_model, h1, h2, killEvs]

theorem claim_C2_witness :
    run [["m1.gguf"], ["m2.gguf"]] none
        [.switch ["m1.gguf"] 1 true, .switch ["m2.gguf"] 2 true]
      = (some 2, [.spawn 1, .kill 1, .spawn 2]) :=
  claim_C2_switch_switch [["m1.gguf"], ["m2.gguf"]] ["m1.gguf"] ["m2.gguf"]
    1 2 (by decide) (by decide) (by decide)

/-- C3: a `switch_model` call whose model path does not exist fails with the
model-not-found error naming the path, emits no kill or spawn, and leaves the
Supervisor slot exactly as it was. -/
theorem claim_C3_model_not_found (fs : Fs) (st : Option Nat) (path : Path)
    (pid : Nat) (spawnOk : Bool) (h : fs.ex path = false) :
    step fs st (.switch path pid spawnOk)
      = (.err ("Model file not found: " ++ pathString path), st, []) := by
  simp [step, switch_model, h]

theorem claim_C3_witness :
    step [] (some 5) (.switch ["x.gguf"] 9 true)
      = (.err ("Model file not found: " ++ pathString ["x.gguf"]), some 5, []) :=
  claim_C3_model_not_found [] (some 5) ["x.gguf"] 9 true (by decide)

/-- C4 counterexample: when spawning the new backend fails, `switch_model`
does not surface an error result to the caller — the source's
`.expect("Failed to start llama-server")` aborts (panics), which the model
records as `CmdRes.panicked`, a constructor distinct from `CmdRes.err`. -/
theorem claim_C4_counterexample :
    (switch_model [["m.gguf"]] none ["m.gguf"] 7 false).1
      = CmdRes.panicked "Failed to start llama-server" := rfl

/-- C4 amended: when spawning the new backend fails at the OS level, the
Supervisor slot is left empty (Idle, no dead reference retained) and the old
process was already killed, but the failure surfaces as a panic (abort) with
the fixed `expect` message, not as an error result. -/
theorem claim_C4_amended (fs : Fs) (st : Option Nat) (path : Path) (pid : Nat)
    (h : fs.ex path = true) :
    switch_model fs st path pid false
      = (.panicked "Failed to start llama-server", none, killEvs st) := by
  simp [switch_model, h]

theorem claim_C4_witness :
    switch_model [["m.gguf"]] (some 3) ["m.gguf"] 7 false
      = (.panicked "Failed to start llama-server", none, killEvs (some 3)) :=
  claim_C4_amended [["m.gguf"]] (some 3) ["m.gguf"] 7 (by decide)

/-- A filesystem on which the code order and the spec's layout-major order of
`resolve_llama_exe` disagree (macOS build): the release-layout candidate for
the first filename and the dev-layout candidate for the second filename both
exist. -/
def fsC5 : Fs :=
  [["a", "bin", "llama-mac", "llama-server"],
   ["a", "src-tauri", "bin", "llama-mac", "llama-server-macos"]]

/-- C5 counterexample: on macOS, with a dev-layout candidate present
(`a/src-tauri/bin/llama-mac/llama-server-macos`), `resolve_llama_exe` still
returns the release-layout candidate `a/bin/llama-mac/llama-server`, because
the source iterates filenames in the outer loop and layouts in the inner one;
the layout-major order the claim states would return the dev candidate. -/
theorem claim_C5_counterexample :
    resolve_llama_exe .macos ["a"] fsC5
        = .ok ["a", "bin", "llama-mac", "llama-server"]
    ∧ fsC5.ex ["a", "src-tauri", "bin", "llama-mac", "llama-server-macos"]
        = true
    ∧ resolveLlamaLayoutMajor .macos ["a"] fsC5
        = .ok ["a", "src-tauri", "bin", "llama-mac", "llama-server-macos"] :=
  ⟨rfl, rfl, rfl⟩

/-- C5 amended: resolution walks the ancestors closest first, but at each
ancestor the filename loop is outermost and the layout chain innermost:
`resolve_llama_exe` returns the first existing element of `llamaCandidates`
(ancestors, then each platform filename in declared order, then
dev/release/resources), enumerated in `llamaFlatResolve`; `resolve_tts_exe`
returns the first accepted element of `ttsCandidates` (per ancestor: the
three onedir layouts dev/release/resources, then the legacy onefile
candidate with its parent-name guard), enumerated in `ttsFlatResolve`.  On
platforms whose descriptor declares a single filename (Windows, Linux) the
code order coincides with the claim's layout-major priority order. -/
theorem claim_C5_amended (pl : Platform) (exeP : Path) (fs : Fs) :
    resolve_llama_exe pl exeP fs = llamaFlatResolve pl exeP fs
    ∧ resolve_tts_exe pl exeP fs = ttsFlatResolve pl exeP fs
    ∧ resolve_llama_exe .windows exeP fs
        = resolveLlamaLayoutMajor .windows exeP fs
    ∧ resolve_llama_exe .linux exeP fs
        = resolveLlamaLayoutMajor .linux exeP fs :=
  ⟨resolveLlama_flat pl exeP fs, resolveTts_flat pl exeP fs,
   layoutMajor_eq_single .windows "llama-server.exe" rfl exeP fs,
   layoutMajor_eq_single .linux "llama-server" rfl exeP fs⟩

/-- C6 counterexample: when nothing resolves, `resolve_tts_exe` fails with
the fixed message `TTS executable not found`, which does not mention the
checked candidate `a/src-tauri/bin/tts-lin/tts-inference/tts-inference`
(nor any other path), so the error does not enumerate the paths checked. -/
theorem claim_C6_counterexample :
    resolve_tts_exe .linux ["a"] [] = .error "TTS executable not found"
    ∧ (⟨["a", "src-tauri", "bin", "tts-lin", "tts-inference",
        "tts-inference"], false⟩ : TtsCand) ∈ ttsCandidates .linux ["a"]
    ∧ hasChunk
        (pathString ["a", "src-tauri", "bin", "tts-lin", "tts-inference",
          "tts-inference"]).data
        ("TTS executable not found").data = false :=
  ⟨rfl, by decide, by decide⟩

/-- C6 amended: when no candidate exists anywhere in the ancestor chain,
`resolve_llama_exe` fails with an error enumerating every checked path (the
full `llamaCandidates` list, in check order), while `resolve_tts_exe` fails
with the fixed message `TTS executable not found` that enumerates nothing. -/
theorem claim_C6_amended (pl : Platform) (exeP : Path) (fs : Fs)
    (hl : ∀ c ∈ llamaCandidates pl exeP, fs.ex c = false)
    (ht : ∀ c ∈ ttsCandidates pl exeP, fs.ex c.path = false) :
    resolve_llama_exe pl exeP fs = .error (llamaCandidates pl exeP)
    ∧ resolve_tts_exe pl exeP fs = .error "TTS executable not found" := by
  constructor
  · rw [resolveLlama_flat]
    unfold llamaFlatResolve
    rw [firstMatch_eq_none _ _ hl]
  · rw [resolveTts_flat]
    unfold ttsFlatResolve
    have hacc : ∀ c ∈ ttsCandidates pl exeP, ttsAccept fs c = false := by
      intro c hc
      unfold ttsAccept
      rw [ht c hc]
      cases c.legacy <;> simp
    rw [firstMatch_eq_none _ _ hacc]

theorem claim_C6_witness :
    resolve_llama_exe .linux ["a"] [] = .error (llamaCandidates .linux ["a"])
    ∧ resolve_tts_exe .linux ["a"] [] = .error "TTS executable not found" :=
  claim_C6_amended .linux ["a"] [] (by decide) (by decide)

/-- The filesystem used by the one-shot witnesses: the TTS executable is
present in the dev layout under the root ancestor. -/
def fsTts : Fs :=
  [["src-tauri", "bin", "tts-lin", "tts-inference", "tts-inference"],
   ["d", "s3gen.gguf"], ["d", "ve_fp32-f16.gguf"], ["d", "t3_cfg-q4_k_m.gguf"]]

/-- C7: in a `generate_speech` invocation whose executable resolves, the
primary model file and its two sibling component files are each checked
before any subprocess is spawned: whichever is absent produces an error
naming that specific file, with the spawn-attempted flag still `false`. -/
theorem claim_C7_artifact_checks (pl : Platform) (exeP : Path) (fs : Fs)
    (model_path tempDir : Path) (timestamp : Nat) (spawnRes : Option ProcOut)
    (exe : Path) (hres : resolve_tts_exe pl exeP fs = .ok exe) :
    (fs.ex model_path = false →
      generate_speech pl exeP fs model_path tempDir timestamp spawnRes
        = (.err ("Model path not found: " ++ pathString model_path), false))
    ∧ (fs.ex model_path = true →
       fs.ex (model_path.dropLast ++ ["ve_fp32-f16.gguf"]) = false →
      generate_speech pl exeP fs model_path tempDir timestamp spawnRes
        = (.err ("Sibling VAE model (ve_fp32-f16.gguf) not found in "
            ++ pathString model_path.dropLast), false))
    ∧ (fs.ex model_path = true →
       fs.ex (model_path.dropLast ++ ["ve_fp32-f16.gguf"]) = true →
       fs.ex (model_path.dropLast ++ ["t3_cfg-q4_k_m.gguf"]) = false →
      generate_speech pl exeP fs model_path tempDir timestamp spawnRes
        = (.err ("Sibling CLIP model (t3_cfg-q4_k_m.gguf) not found in "
            ++ pathString model_path.dropLast), false)) := by
  refine ⟨fun h1 => ?_, fun h1 h2 => ?_, fun h1 h2 h3 => ?_⟩
  · simp [generate_speech, hres, h1]
  · simp [generate_speech, hres, h1, h2]
  · simp [generate_speech, hres, h1, h2, h3]

theorem claim_C7_witness :
    generate_speech .linux ["app"] fsTts ["m.gguf"] ["tmp"] 42 none
      = (.err ("Model path not found: " ++ pathString ["m.gguf"]), false) :=
  (claim_C7_artifact_checks .linux ["app"] fsTts ["m.gguf"] ["tmp"] 42 none
    ["src-tauri", "bin", "tts-lin", "tts-inference", "tts-inference"]
    rfl).1 rfl

/-- C8: when the one-shot TTS subprocess exits with a non-zero status,
`generate_speech` fails with the error built from the captured streams,
which contains the exact captured stderr text and the exact captured stdout
text verbatim. -/
theorem claim_C8_invocation_failed (pl : Platform) (exeP : Path) (fs : Fs)
    (model_path tempDir : Path) (timestamp : Nat) (out : ProcOut) (exe : Path)
    (hres : resolve_tts_exe pl exeP fs = .ok exe)
    (h1 : fs.ex model_path = true)
    (h2 : fs.ex (model_path.dropLast ++ ["ve_fp32-f16.gguf"]) = true)
    (h3 : fs.ex (model_path.dropLast ++ ["t3_cfg-q4_k_m.gguf"]) = true)
    (hfail : out.success = false) :
    generate_speech pl exeP fs model_path tempDir timestamp (some out)
      = (.err (ttsFailMsg out.stderr out.stdout), true)
    ∧ (∃ pre post, ttsFailMsg out.stderr out.stdout
        = pre ++ out.stderr ++ post)
    ∧ (∃ pre post, ttsFailMsg out.stderr out.stdout
        = pre ++ out.stdout ++ post) := by
  refine ⟨?_, ⟨"TTS process failed: ", "\nStdout: " ++ out.stdout, ?_⟩,
    ⟨"TTS process failed: " ++ out.stderr ++ "\nStdout: ", "", ?_⟩⟩
  · simp [generate_speech, hres, h1, h2, h3, hfail]
  · simp only [ttsFailMsg, strAppend_assoc]
  · rw [strAppend_empty]
    exact rfl

theorem claim_C8_witness :
    generate_speech .linux ["app"] fsTts ["d", "s3gen.gguf"] ["tmp"] 5
        (some ⟨false, "outtext", "errtext"⟩)
      = (.err (ttsFailMsg "errtext" "outtext"), true) :=
  (claim_C8_invocation_failed .linux ["app"] fsTts ["d", "s3gen.gguf"]
    ["tmp"] 5 ⟨false, "outtext", "errtext"⟩
    ["src-tauri", "bin", "tts-lin", "tts-inference", "tts-inference"]
    rfl rfl rfl rfl rfl).1

/-- C9: `stop_llama` on an Idle supervisor returns normally with no kill, no
spawn and an unchanged-empty slot, and the shutdown (exit) handler, from any
prior state, leaves the slot empty and emits only the kill effects of
`killEvs`, which number at most one. -/
theorem claim_C9_stop_shutdown (fs : Fs) (st : Option Nat) :
    step fs none .stop = (.ok "", none, [])
    ∧ step fs st .shutdown = (.ok "", none, killEvs st)
    ∧ (killEvs st).length ≤ 1 := by
  refine ⟨rfl, rfl, ?_⟩
  cases st <;> simp [killEvs]

/-- C10: `get_models_dir` honours the `GENHAT_MODEL_PATH` override: an
existing file yields its parent directory, an existing directory yields
itself, and otherwise (unset, or naming neither) the compiled-in default
relative to the build manifest directory is used. -/
theorem claim_C10_models_dir (isFile isDir : Path → Bool)
    (canon : Path → Option Path) (manifestDir : Path) (p : Path) :
    (isFile p = true → p ≠ [] →
      get_models_dir isFile isDir (some p) canon manifestDir = p.dropLast)
    ∧ (isFile p = false → isDir p = true →
      get_models_dir isFile isDir (some p) canon manifestDir = p)
    ∧ (isFile p = false → isDir p = false →
      get_models_dir isFile isDir (some p) canon manifestDir
        = defaultModelsDir canon manifestDir)
    ∧ get_models_dir isFile isDir none canon manifestDir
        = defaultModelsDir canon manifestDir := by
  refine ⟨fun h1 h2 => ?_, fun h1 h2 => ?_, fun h1 h2 => ?_, rfl⟩
  · cases p with
    | nil => exact absurd rfl h2
    | cons a t => simp [get_models_dir, h1, parentPath]
  · simp [get_models_dir, h1, h2]
  · simp [get_models_dir, h1, h2]

theorem claim_C10_witness :
    get_models_dir (fun q => q == ["models", "a.gguf"]) (fun _ => false)
        (some ["models", "a.gguf"]) (fun _ => none) ["repo", "src-tauri"]
      = ["models"]
    ∧ get_models_dir (fun _ => false) (fun _ => false) (some ["nope"])
        (fun _ => none) ["repo", "src-tauri"]
      = defaultModelsDir (fun _ => none) ["repo", "src-tauri"] :=
  ⟨(claim_C10_models_dir (fun q => q == ["models", "a.gguf"]) (fun _ => false)
      (fun _ => none) ["repo", "src-tauri"] ["models", "a.gguf"]).1
      rfl (by decide),
   (claim_C10_models_dir (fun _ => false) (fun _ => false) (fun _ => none)
      ["repo", "src-tauri"] ["nope"]).2.2.1 rfl rfl⟩

end GenHat
